import Mathlib

/-!
Shallow embedding of the decision logic of the placement-management server
(`src/server/src/index.js`) and proofs about it.

Conventions used throughout:
* JS numbers that only ever hold (possibly fractional) CGPA values are modelled
  as `Rat`; integer counters (`currentBacklogs`, `maxStudents`, values coming
  from `parseInt`) are modelled as `Int` since `parseInt` can produce negative
  values; identifiers are `Nat`.
* ISO timestamp strings are kept as `String`; the code never computes with them.
* The in-memory arrays (`drives`, `applications`, `mentorshipSlots`, ...) become
  explicit state records, and each Express handler becomes a function from its
  inputs and the state to an `Except ApiError` result paired with the new state.
* HTTP status codes are modelled by the error taxonomy `ApiError`:
  400 → `.validation`, 404 → `.notFound`, 409 → `.conflict`,
  500 → `.internal`.
-/

/-- Error taxonomy of the HTTP layer: 400, 404, 409, 500. -/
inductive ApiError where
  | validation
  | notFound
  | conflict
  | internal
deriving DecidableEq, Repr

/-- Drive status, `'ACTIVE' | 'CLOSED'` in the source. -/
inductive DriveStatus where
  | ACTIVE
  | CLOSED
deriving DecidableEq, Repr

/-- Application status taxonomy from the source comments and the FAQ answer:
`APPLIED`, `INTERVIEW_SCHEDULED`, `SELECTED`, `REJECTED`. -/
inductive AppStatus where
  | APPLIED
  | INTERVIEW_SCHEDULED
  | SELECTED
  | REJECTED
deriving DecidableEq, Repr

/-- One entry of a profile's `education` array (`{degree, institution, year, percentage}`). -/
structure EducationEntry where
  degree : String
  institution : String
  year : String
  percent : String
deriving DecidableEq, Repr

/-- The `personalInfo` object of a student profile. -/
structure PersonalInfo where
  address : String
  linkedin : String
  github : String
deriving DecidableEq, Repr

/-- A student profile record, as stored in the `studentProfiles` array:
`{ userId, branch, cgpa, currentBacklogs, skills, experience, projects, education, personalInfo }`. -/
structure StudentProfile where
  userId : Nat
  branch : String
  cgpa : Rat
  currentBacklogs : Int
  skills : List String
  experience : String
  projects : String
  education : List EducationEntry
  personalInfo : PersonalInfo
deriving DecidableEq, Repr

/-- A drive record, as stored in the `drives` array. -/
structure Drive where
  id : Nat
  companyName : String
  roleTitle : String
  description : String
  minCgpa : Rat
  maxBacklogs : Int
  allowedBranches : List String
  location : String
  ctc : String
  applicationDeadline : Option String
  createdBy : Nat
  createdAt : String
  status : DriveStatus
deriving DecidableEq, Repr

/-- An application record, as stored in the `applications` array. -/
structure Application where
  id : Nat
  driveId : Nat
  studentId : Nat
  status : AppStatus
  appliedAt : String
  updatedAt : String
deriving DecidableEq, Repr

/-! ## 4.1 Eligibility Engine -/

/-- The filter body of `GET /api/tpo/drives/:driveId/eligible-students`
(index.js:370-383): check CGPA, then backlogs, then branch (only when
`allowedBranches` is non-empty), with early `return false`. -/
def eligibleStudentPred (drive : Drive) (profile : StudentProfile) : Bool :=
  if profile.cgpa < drive.minCgpa then false
  else if profile.currentBacklogs > drive.maxBacklogs then false
  else if drive.allowedBranches.length > 0 && !(drive.allowedBranches.contains profile.branch) then
    false
  else true

/-- The filter body of `GET /api/students/eligible-drives` (index.js:455-467):
the same three checks, followed by `return drive.status === 'ACTIVE'`. -/
def eligibleDrivePred (profile : StudentProfile) (drive : Drive) : Bool :=
  if profile.cgpa < drive.minCgpa then false
  else if profile.currentBacklogs > drive.maxBacklogs then false
  else if drive.allowedBranches.length > 0 && !(drive.allowedBranches.contains profile.branch) then
    false
  else drive.status == DriveStatus.ACTIVE

/-- `GET /api/tpo/drives/:driveId/eligible-students`: 404 on unknown drive,
otherwise the profiles passing `eligibleStudentPred`. -/
def eligibleStudentsFor (driveId : Nat) (drives : List Drive)
    (studentProfiles : List StudentProfile) : Except ApiError (List StudentProfile) :=
  match drives.find? (fun d => d.id == driveId) with
  | none => .error .notFound
  | some drive => .ok (studentProfiles.filter (fun p => eligibleStudentPred drive p))

/-- `GET /api/students/eligible-drives`: empty list when the caller has no
profile or an empty branch, otherwise the drives passing `eligibleDrivePred`. -/
def eligibleDrivesFor (userId : Nat) (drives : List Drive)
    (studentProfiles : List StudentProfile) : List Drive :=
  match studentProfiles.find? (fun p => p.userId == userId) with
  | none => []
  | some profile =>
    if profile.branch = "" then []
    else drives.filter (fun d => eligibleDrivePred profile d)

/-- **C1.** For every student profile and drive, the eligibility predicate used by
both listing operations is true iff
`profile.cgpa >= drive.minCgpa ∧ profile.currentBacklogs <= drive.maxBacklogs ∧
(drive.allowedBranches empty ∨ profile.branch ∈ drive.allowedBranches)`;
the drive-listing filter is that same predicate conjoined with the drive being ACTIVE. -/
theorem eligibility_pred_iff (profile : StudentProfile) (drive : Drive) :
    (eligibleStudentPred drive profile = true ↔
      drive.minCgpa ≤ profile.cgpa ∧ profile.currentBacklogs ≤ drive.maxBacklogs ∧
        (drive.allowedBranches = [] ∨ profile.branch ∈ drive.allowedBranches)) ∧
    eligibleDrivePred profile drive =
      (eligibleStudentPred drive profile && drive.status == DriveStatus.ACTIVE) := by
  constructor
  · constructor
    · intro h
      unfold eligibleStudentPred at h
      split_ifs at h with h1 h2 h3
      refine ⟨not_lt.mp h1, not_lt.mp h2, ?_⟩
      by_cases hnil : drive.allowedBranches = []
      · exact Or.inl hnil
      · refine Or.inr ?_
        rw [← List.elem_iff]
        by_contra hcon
        apply h3
        simp only [Bool.and_eq_true, decide_eq_true_eq, Bool.not_eq_true']
        exact ⟨by
          have := List.length_pos.mpr hnil
          omega, by simpa using hcon⟩
    · rintro ⟨hc, hb, hbr⟩
      unfold eligibleStudentPred
      rw [if_neg (not_lt.mpr hc), if_neg (not_lt.mpr hb), if_neg]
      intro hcon
      simp only [Bool.and_eq_true, decide_eq_true_eq, Bool.not_eq_true'] at hcon
      rcases hbr with hnil | hmem
      · rw [hnil] at hcon
        simp at hcon
      · rw [show drive.allowedBranches.contains profile.branch = true from
          (List.elem_iff).mpr hmem] at hcon
        simp at hcon
  · unfold eligibleStudentPred eligibleDrivePred
    split_ifs <;> simp_all

/-! ## 4.2 Application Lifecycle -/

/-- The state touched by `POST /api/students/drives/:driveId/apply`:
the `drives` and `applications` arrays and the `nextApplicationId` counter. -/
structure ApplyState where
  drives : List Drive
  applications : List Application
  nextApplicationId : Nat
deriving DecidableEq, Repr

/-- `POST /api/students/drives/:driveId/apply` (index.js:488-520): 404 when no
drive has the id, 409 when an application for `(driveId, studentId)` already
exists, otherwise push a new `APPLIED` application.  `now` stands for
`new Date().toISOString()`. -/
def applyToDrive (studentId driveId : Nat) (now : String) (st : ApplyState) :
    Except ApiError (Application × ApplyState) :=
  match st.drives.find? (fun d => d.id == driveId) with
  | none => .error .notFound
  | some _ =>
    match st.applications.find? (fun a => a.driveId == driveId && a.studentId == studentId) with
    | some _ => .error .conflict
    | none =>
      let application : Application :=
        { id := st.nextApplicationId
          driveId := driveId
          studentId := studentId
          status := .APPLIED
          appliedAt := now
          updatedAt := now }
      .ok (application,
        { st with
          applications := st.applications ++ [application]
          nextApplicationId := st.nextApplicationId + 1 })

/-- Number of stored applications for a given `(driveId, studentId)` pair. -/
def pairCount (driveId studentId : Nat) (st : ApplyState) : Nat :=
  (st.applications.filter (fun a => a.driveId == driveId && a.studentId == studentId)).length

/-- **C2.** `applyToDrive` fails with `notFound` when no drive has the id; fails
with `conflict` when an application for the pair already exists; otherwise it
appends exactly one new `APPLIED` application, and a second call for the same
pair then fails with `conflict`, leaving exactly one application for the pair. -/
theorem apply_lifecycle (studentId driveId : Nat) (now now' : String) (st : ApplyState) :
    (st.drives.find? (fun d => d.id == driveId) = none →
      applyToDrive studentId driveId now st = .error .notFound) ∧
    (∀ d, st.drives.find? (fun d => d.id == driveId) = some d →
      ∀ a0, st.applications.find?
          (fun a => a.driveId == driveId && a.studentId == studentId) = some a0 →
        applyToDrive studentId driveId now st = .error .conflict) ∧
    (∀ d, st.drives.find? (fun d => d.id == driveId) = some d →
      st.applications.find?
          (fun a => a.driveId == driveId && a.studentId == studentId) = none →
      ∃ a st',
        applyToDrive studentId driveId now st = .ok (a, st') ∧
        a.status = .APPLIED ∧ a.driveId = driveId ∧ a.studentId = studentId ∧
        st'.applications = st.applications ++ [a] ∧
        pairCount driveId studentId st' = pairCount driveId studentId st + 1 ∧
        applyToDrive studentId driveId now' st' = .error .conflict ∧
        (pairCount driveId studentId st = 0 → pairCount driveId studentId st' = 1)) := by
  refine ⟨?_, ?_, ?_⟩
  · intro hnone
    unfold applyToDrive
    rw [hnone]
  · intro d hd a0 ha0
    unfold applyToDrive
    rw [hd, ha0]
  · intro d hd hnone
    refine ⟨{ id := st.nextApplicationId, driveId := driveId, studentId := studentId,
              status := .APPLIED, appliedAt := now, updatedAt := now },
            { st with
              applications := st.applications ++
                [{ id := st.nextApplicationId, driveId := driveId, studentId := studentId,
                   status := .APPLIED, appliedAt := now, updatedAt := now }]
              nextApplicationId := st.nextApplicationId + 1 },
            ?_, rfl, rfl, rfl, rfl, ?_, ?_, ?_⟩
    · unfold applyToDrive
      rw [hd, hnone]
    · unfold pairCount
      simp
    · unfold applyToDrive
      have hfind :
          ((st.applications ++
              [{ id := st.nextApplicationId, driveId := driveId, studentId := studentId,
                 status := .APPLIED, appliedAt := now, updatedAt := now }] : List Application)).find?
            (fun a => a.driveId == driveId && a.studentId == studentId) =
          some { id := st.nextApplicationId, driveId := driveId, studentId := studentId,
                 status := .APPLIED, appliedAt := now, updatedAt := now } := by
        rw [List.find?_append, hnone]
        simp
      simp only
      rw [hd, hfind]
    · intro h0
      unfold pairCount at h0 ⊢
      simp only [List.filter_append, List.length_append, h0]
      simp

/-- Concrete drive used to witness the application lifecycle. -/
def c2Drive : Drive :=
  { id := 1, companyName := "Acme", roleTitle := "Dev", description := "",
    minCgpa := 7, maxBacklogs := 0, allowedBranches := ["CS"], location := "", ctc := "",
    applicationDeadline := none, createdBy := 9, createdAt := "t0", status := .ACTIVE }

/-- Concrete state holding `c2Drive` and no applications. -/
def c2State : ApplyState :=
  { drives := [c2Drive], applications := [], nextApplicationId := 1 }

/-- Witness for C2: student 5 applying twice to drive 1 from `c2State`. -/
theorem apply_lifecycle_witness :
    c2State.drives.find? (fun d => d.id == 1) = some c2Drive ∧
    c2State.applications.find? (fun a => a.driveId == 1 && a.studentId == 5) = none ∧
    ∃ a st',
      applyToDrive 5 1 "t1" c2State = .ok (a, st') ∧
      a.status = .APPLIED ∧ a.driveId = 1 ∧ a.studentId = 5 ∧
      st'.applications = c2State.applications ++ [a] ∧
      pairCount 1 5 st' = pairCount 1 5 c2State + 1 ∧
      applyToDrive 5 1 "t2" st' = .error .conflict ∧
      (pairCount 1 5 c2State = 0 → pairCount 1 5 st' = 1) :=
  ⟨rfl, rfl, (apply_lifecycle 5 1 "t1" "t2" c2State).2.2 c2Drive rfl rfl⟩

/-- **C10.** `applyToDrive` checks only that the drive exists and that the pair has
no application yet: for any found drive it creates an `APPLIED` application, and
the same application is created when every drive's `status`,
`applicationDeadline` and eligibility criteria are replaced arbitrarily — the
handler never reads them (in particular a CLOSED drive with a past deadline and
unmet criteria can be applied to). -/
theorem apply_ignores_drive_attributes (studentId driveId : Nat) (now : String)
    (st : ApplyState) (d : Drive)
    (hd : st.drives.find? (fun d => d.id == driveId) = some d)
    (hnone : st.applications.find?
      (fun a => a.driveId == driveId && a.studentId == studentId) = none) :
    ∃ a st',
      applyToDrive studentId driveId now st = .ok (a, st') ∧ a.status = .APPLIED ∧
      ∀ (newStatus : DriveStatus) (newDeadline : Option String) (newMinCgpa : Rat)
        (newMaxBacklogs : Int) (newBranches : List String),
        ∃ st'', applyToDrive studentId driveId now
            { st with drives := st.drives.map (fun dr =>
                { dr with status := newStatus, applicationDeadline := newDeadline,
                          minCgpa := newMinCgpa, maxBacklogs := newMaxBacklogs,
                          allowedBranches := newBranches }) } = .ok (a, st'') := by
  refine ⟨{ id := st.nextApplicationId, driveId := driveId, studentId := studentId,
            status := .APPLIED, appliedAt := now, updatedAt := now },
          { st with
            applications := st.applications ++
              [{ id := st.nextApplicationId, driveId := driveId, studentId := studentId,
                 status := .APPLIED, appliedAt := now, updatedAt := now }]
            nextApplicationId := st.nextApplicationId + 1 },
          ?_, rfl, ?_⟩
  · unfold applyToDrive
    rw [hd, hnone]
  · intro newStatus newDeadline newMinCgpa newMaxBacklogs newBranches
    refine ⟨{ st with
              drives := st.drives.map (fun dr =>
                { dr with status := newStatus, applicationDeadline := newDeadline,
                          minCgpa := newMinCgpa, maxBacklogs := newMaxBacklogs,
                          allowedBranches := newBranches })
              applications := st.applications ++
                [{ id := st.nextApplicationId, driveId := driveId, studentId := studentId,
                   status := .APPLIED, appliedAt := now, updatedAt := now }]
              nextApplicationId := st.nextApplicationId + 1 }, ?_⟩
    unfold applyToDrive
    have hmap : (st.drives.map (fun dr =>
        { dr with status := newStatus, applicationDeadline := newDeadline,
                  minCgpa := newMinCgpa, maxBacklogs := newMaxBacklogs,
                  allowedBranches := newBranches })).find? (fun d => d.id == driveId) =
        some { d with status := newStatus, applicationDeadline := newDeadline,
                      minCgpa := newMinCgpa, maxBacklogs := newMaxBacklogs,
                      allowedBranches := newBranches } := by
      rw [List.find?_map]
      have : ((fun d : Drive => d.id == driveId) ∘ (fun dr : Drive =>
          { dr with status := newStatus, applicationDeadline := newDeadline,
                    minCgpa := newMinCgpa, maxBacklogs := newMaxBacklogs,
                    allowedBranches := newBranches })) = fun d : Drive => d.id == driveId := rfl
      rw [this, hd]
      rfl
    simp only
    rw [hmap, hnone]

/-- Concrete CLOSED drive with a past deadline and strict criteria. -/
def c10Drive : Drive :=
  { id := 3, companyName := "Globex", roleTitle := "SRE", description := "",
    minCgpa := 9.9, maxBacklogs := 0, allowedBranches := ["EEE"], location := "", ctc := "",
    applicationDeadline := some "2000-01-01T00:00:00.000Z", createdBy := 9,
    createdAt := "t0", status := .CLOSED }

/-- Concrete state holding only `c10Drive` and no applications. -/
def c10State : ApplyState :=
  { drives := [c10Drive], applications := [], nextApplicationId := 4 }

/-- Witness for C10: applying to the CLOSED, expired, criteria-gated `c10Drive`. -/
theorem apply_ignores_drive_attributes_witness :
    c10State.drives.find? (fun d => d.id == 3) = some c10Drive ∧
    c10State.applications.find? (fun a => a.driveId == 3 && a.studentId == 6) = none ∧
    ∃ a st',
      applyToDrive 6 3 "t5" c10State = .ok (a, st') ∧ a.status = .APPLIED ∧
      ∀ (newStatus : DriveStatus) (newDeadline : Option String) (newMinCgpa : Rat)
        (newMaxBacklogs : Int) (newBranches : List String),
        ∃ st'', applyToDrive 6 3 "t5"
            { c10State with drives := c10State.drives.map (fun dr =>
                { dr with status := newStatus, applicationDeadline := newDeadline,
                          minCgpa := newMinCgpa, maxBacklogs := newMaxBacklogs,
                          allowedBranches := newBranches }) } = .ok (a, st'') :=
  ⟨rfl, rfl, apply_ignores_drive_attributes 6 3 "t5" c10State c10Drive rfl rfl⟩

/-! ## 4.3 Mentorship Scheduler -/

/-- Slot status, `'AVAILABLE' | 'FULL'` in the source. -/
inductive SlotStatus where
  | AVAILABLE
  | FULL
deriving DecidableEq, Repr

/-- Booking status; the source only ever writes `'CONFIRMED'`. -/
inductive BookingStatus where
  | CONFIRMED
deriving DecidableEq, Repr

/-- A mentorship slot record, as stored in the `mentorshipSlots` array. -/
structure MentorshipSlot where
  id : Nat
  alumniUserId : Nat
  slotStart : String
  slotEnd : String
  maxStudents : Int
  currentBookings : Int
  description : String
  createdAt : String
  status : SlotStatus
deriving DecidableEq, Repr

/-- A mentorship booking record, as stored in the `mentorshipBookings` array. -/
structure MentorshipBooking where
  id : Nat
  slotId : Nat
  studentId : Nat
  bookedAt : String
  status : BookingStatus
deriving DecidableEq, Repr

/-- The state touched by the mentorship endpoints: the `mentorshipSlots` and
`mentorshipBookings` arrays and their id counters. -/
structure MentorState where
  slots : List MentorshipSlot
  nextSlotId : Nat
  bookings : List MentorshipBooking
  nextBookingId : Nat
deriving DecidableEq, Repr

/-- JS truthiness of a present-or-absent string field: `undefined`/missing and
the empty string are falsy, every other string is truthy. -/
def jsStrTruthy (o : Option String) : Bool :=
  match o with
  | none => false
  | some s => s != ""

/-- Models `parseInt(maxStudents) || 1` (index.js:638): an absent or
non-numeric value (`parseInt` gives `NaN`, falsy) becomes `none` and defaults
to 1, a parsed `0` is falsy and also defaults to 1, and any other parsed
integer — including a negative one — is kept. -/
def parseMaxStudents (o : Option Int) : Int :=
  match o with
  | none => 1
  | some n => if n == 0 then 1 else n

/-- `POST /api/alumni/mentorship-slots` (index.js:625-651): 400 when `slotStart`
or `slotEnd` is missing/falsy, otherwise push a slot with
`currentBookings = 0` and `status = 'AVAILABLE'`.  No check relates `slotStart`
to `slotEnd`, and `maxStudents` is only normalised by `parseInt(...) || 1`. -/
def createSlot (alumniId : Nat) (slotStart slotEnd : Option String)
    (maxStudents : Option Int) (description : Option String) (now : String)
    (st : MentorState) : Except ApiError (MentorshipSlot × MentorState) :=
  if !jsStrTruthy slotStart || !jsStrTruthy slotEnd then .error .validation
  else
    let slot : MentorshipSlot :=
      { id := st.nextSlotId
        alumniUserId := alumniId
        slotStart := slotStart.getD ""
        slotEnd := slotEnd.getD ""
        maxStudents := parseMaxStudents maxStudents
        currentBookings := 0
        description := description.getD ""
        createdAt := now
        status := .AVAILABLE }
    .ok (slot, { st with slots := st.slots ++ [slot], nextSlotId := st.nextSlotId + 1 })

/-- Replace the first slot with the given id — the JS code mutates, in place,
the array element returned by `find`, which is the first match. -/
def setSlot : List MentorshipSlot → Nat → MentorshipSlot → List MentorshipSlot
  | [], _, _ => []
  | s :: rest, slotId, s' =>
    if s.id == slotId then s' :: rest else s :: setSlot rest slotId s'

/-- `POST /api/mentorship/slots/:slotId/book` (index.js:689-730): 404 when no
slot has the id; 400 ("no longer available") when the slot is not AVAILABLE or
`currentBookings >= maxStudents`; 409 when the student already has a booking on
the slot; otherwise push a CONFIRMED booking, increment `currentBookings`, and
set the status to FULL when the incremented count reaches `maxStudents`.  Note
the availability check runs before the duplicate-booking check. -/
def bookSlot (studentId slotId : Nat) (now : String) (st : MentorState) :
    Except ApiError (MentorshipBooking × MentorState) :=
  match st.slots.find? (fun s => s.id == slotId) with
  | none => .error .notFound
  | some slot =>
    if slot.status != .AVAILABLE || slot.currentBookings ≥ slot.maxStudents then
      .error .validation
    else
      match st.bookings.find? (fun b => b.slotId == slotId && b.studentId == studentId) with
      | some _ => .error .conflict
      | none =>
        let booking : MentorshipBooking :=
          { id := st.nextBookingId
            slotId := slotId
            studentId := studentId
            bookedAt := now
            status := .CONFIRMED }
        let slot' : MentorshipSlot :=
          { slot with
            currentBookings := slot.currentBookings + 1
            status := if slot.currentBookings + 1 ≥ slot.maxStudents then .FULL else slot.status }
        .ok (booking,
          { st with
            slots := setSlot st.slots slotId slot'
            bookings := st.bookings ++ [booking]
            nextBookingId := st.nextBookingId + 1 })

/-- The mentorship states reachable from the empty store by any sequence of
successful `createSlot` and `bookSlot` calls (failed calls leave the state
unchanged, so they need no constructor). -/
inductive MentorReach : MentorState → Prop where
  | init : MentorReach { slots := [], nextSlotId := 1, bookings := [], nextBookingId := 1 }
  | create {st st' : MentorState} {alumniId : Nat} {slotStart slotEnd : Option String}
      {maxStudents : Option Int} {description : Option String} {now : String}
      {slot : MentorshipSlot} :
      MentorReach st →
      createSlot alumniId slotStart slotEnd maxStudents description now st = .ok (slot, st') →
      MentorReach st'
  | book {st st' : MentorState} {studentId slotId : Nat} {now : String}
      {booking : MentorshipBooking} :
      MentorReach st →
      bookSlot studentId slotId now st = .ok (booking, st') →
      MentorReach st'

/-- The invariant each reachable slot actually satisfies (see `slot_invariant`). -/
def SlotInv (slot : MentorshipSlot) : Prop :=
  slot.maxStudents ≠ 0 ∧
  0 ≤ slot.currentBookings ∧
  (slot.status = .FULL ↔ slot.currentBookings = slot.maxStudents) ∧
  (1 ≤ slot.maxStudents → slot.currentBookings ≤ slot.maxStudents) ∧
  (slot.maxStudents < 0 → slot.currentBookings = 0)

/-- `parseInt(maxStudents) || 1` never yields 0 (0 is falsy and defaults to 1). -/
theorem parseMaxStudents_ne_zero (o : Option Int) : parseMaxStudents o ≠ 0 := by
  unfold parseMaxStudents
  match o with
  | none => simp
  | some n =>
    by_cases h : n = 0
    · simp [h]
    · simp [h]

/-- Every element of `setSlot l i s'` is an element of `l` or is `s'` itself. -/
theorem mem_setSlot {l : List MentorshipSlot} {i : Nat} {s' : MentorshipSlot} :
    ∀ s ∈ setSlot l i s', s ∈ l ∨ s = s' := by
  induction l with
  | nil => intro s hs; simp [setSlot] at hs
  | cons hd tl ih =>
    intro s hs
    unfold setSlot at hs
    by_cases hid : hd.id == i
    · rw [if_pos hid] at hs
      rcases List.mem_cons.mp hs with h | h
      · exact Or.inr h
      · exact Or.inl (List.mem_cons_of_mem _ h)
    · rw [if_neg hid] at hs
      rcases List.mem_cons.mp hs with h | h
      · exact Or.inl (h ▸ List.mem_cons_self _ _)
      · rcases ih s h with h' | h'
        · exact Or.inl (List.mem_cons_of_mem _ h')
        · exact Or.inr h'

/-- The slot produced by the counterexample `createSlot` call: equal start and
end times and a negative `maxStudents` that survives `parseInt(...) || 1`. -/
def c3Slot : MentorshipSlot :=
  { id := 1, alumniUserId := 7, slotStart := "2025-01-02T10:00",
    slotEnd := "2025-01-02T10:00", maxStudents := -3, currentBookings := 0,
    description := "chat", createdAt := "t0", status := .AVAILABLE }

/-- The state reached by that single `createSlot` call from the empty store. -/
def c3State : MentorState :=
  { slots := [c3Slot], nextSlotId := 2, bookings := [], nextBookingId := 1 }

/-- **C3, counterexample.** `createSlot` from the empty store with
`slotStart = slotEnd` and `maxStudents = -3` succeeds and reaches a state whose
slot violates `maxStudents >= 1`, `slotEnd > slotStart` and
`currentBookings <= maxStudents` all at once: the handler validates neither the
time order nor the sign of `maxStudents`. -/
theorem slot_claimed_invariant_counterexample :
    MentorReach c3State ∧ c3Slot ∈ c3State.slots ∧
    ¬(1 ≤ c3Slot.maxStudents) ∧ ¬(c3Slot.slotStart < c3Slot.slotEnd) ∧
    ¬(c3Slot.currentBookings ≤ c3Slot.maxStudents) :=
  ⟨@MentorReach.create { slots := [], nextSlotId := 1, bookings := [], nextBookingId := 1 }
      c3State 7 (some "2025-01-02T10:00") (some "2025-01-02T10:00") (some (-3))
      (some "chat") "t0" c3Slot MentorReach.init (by rfl),
    List.mem_cons_self _ _, by decide,
    by
      rw [show c3Slot.slotEnd = c3Slot.slotStart from rfl]
      exact lt_irrefl _,
    by decide⟩

/-- `SlotInv` holds for a freshly created slot. -/
theorem slotInv_create (idv alum : Nat) (ss se desc nw : String) (ms : Option Int) :
    SlotInv { id := idv, alumniUserId := alum, slotStart := ss, slotEnd := se,
              maxStudents := parseMaxStudents ms, currentBookings := 0,
              description := desc, createdAt := nw, status := .AVAILABLE } := by
  have hnz := parseMaxStudents_ne_zero ms
  unfold SlotInv
  refine ⟨hnz, le_refl 0, ⟨?_, ?_⟩, ?_, ?_⟩
  · intro hfull
    exact absurd hfull (by simp)
  · intro h0
    exact absurd h0.symm hnz
  · intro h1
    have h1' : (1:Int) ≤ parseMaxStudents ms := h1
    show (0:Int) ≤ parseMaxStudents ms
    omega
  · intro _
    rfl

/-- `SlotInv` is preserved by the successful-booking update of a slot. -/
theorem slotInv_book (slot : MentorshipSlot) (h : SlotInv slot)
    (havail : slot.status = .AVAILABLE)
    (hcap : slot.currentBookings < slot.maxStudents) :
    SlotInv { slot with
              currentBookings := slot.currentBookings + 1
              status := (if slot.currentBookings + 1 ≥ slot.maxStudents then SlotStatus.FULL
                         else slot.status) } := by
  obtain ⟨hnz, hnn, hiff, hle, hneg⟩ := h
  unfold SlotInv
  refine ⟨hnz, ?_, ⟨?_, ?_⟩, ?_, ?_⟩
  · show (0:Int) ≤ slot.currentBookings + 1
    omega
  · show (if slot.currentBookings + 1 ≥ slot.maxStudents then SlotStatus.FULL else slot.status)
        = SlotStatus.FULL → slot.currentBookings + 1 = slot.maxStudents
    intro hf
    by_cases hged : slot.currentBookings + 1 ≥ slot.maxStudents
    · omega
    · rw [if_neg hged, havail] at hf
      exact absurd hf (by simp)
  · intro heqm
    show (if slot.currentBookings + 1 ≥ slot.maxStudents then SlotStatus.FULL else slot.status)
        = SlotStatus.FULL
    have heqm' : slot.currentBookings + 1 = slot.maxStudents := heqm
    rw [if_pos (by omega)]
  · intro _
    show slot.currentBookings + 1 ≤ slot.maxStudents
    omega
  · intro hmn
    exfalso
    have hmn' : slot.maxStudents < 0 := hmn
    have := hneg hmn'
    omega

/-- **C3, amended.** Every slot of a state reachable through `createSlot` and any
sequence of `bookSlot` calls satisfies: `maxStudents` is a nonzero (possibly
negative) integer, `currentBookings >= 0`, status is FULL iff
`currentBookings = maxStudents` (else AVAILABLE, the only other status), and
whenever `maxStudents >= 1` also `currentBookings <= maxStudents` (when
`maxStudents < 0` no booking ever succeeds, so `currentBookings = 0`).
`slotEnd > slotStart` and `maxStudents >= 1` themselves are not enforced
anywhere. -/
theorem slot_invariant {st : MentorState} (h : MentorReach st) :
    ∀ slot ∈ st.slots, SlotInv slot := by
  induction h with
  | init => intro slot hs; simp at hs
  | @create st st' alumniId slotStart slotEnd maxStudents description now slot hreach heq ih =>
    intro s hs
    unfold createSlot at heq
    split_ifs at heq with hval
    have hpair := Except.ok.inj heq
    have hst' : st' = { st with slots := st.slots ++
        [{ id := st.nextSlotId, alumniUserId := alumniId, slotStart := slotStart.getD "",
           slotEnd := slotEnd.getD "", maxStudents := parseMaxStudents maxStudents,
           currentBookings := 0, description := description.getD "", createdAt := now,
           status := .AVAILABLE }], nextSlotId := st.nextSlotId + 1 } :=
      (congrArg Prod.snd hpair).symm
    rw [hst'] at hs
    simp only [List.mem_append, List.mem_singleton] at hs
    rcases hs with hs | hs
    · exact ih s hs
    · subst hs
      exact slotInv_create st.nextSlotId alumniId (slotStart.getD "") (slotEnd.getD "")
        (description.getD "") now maxStudents
  | @book st st' studentId slotId now booking hreach heq ih =>
    intro s hs
    unfold bookSlot at heq
    split at heq
    · exact absurd heq (by simp)
    · rename_i slot hfind
      split at heq
      · exact absurd heq (by simp)
      · rename_i hguard
        split at heq
        · exact absurd heq (by simp)
        · rename_i hbk
          have hpair := Except.ok.inj heq
          have hst' : st' = { st with
              slots := setSlot st.slots slotId
                { slot with
                  currentBookings := slot.currentBookings + 1
                  status := (if slot.currentBookings + 1 ≥ slot.maxStudents
                             then SlotStatus.FULL else slot.status) }
              bookings := st.bookings ++
                [{ id := st.nextBookingId, slotId := slotId, studentId := studentId,
                   bookedAt := now, status := .CONFIRMED }]
              nextBookingId := st.nextBookingId + 1 } :=
            (congrArg Prod.snd hpair).symm
          rw [hst'] at hs
          simp only [Bool.or_eq_true, bne_iff_ne, ne_eq, decide_eq_true_eq, not_or,
            not_not, not_le] at hguard
          have hslot : slot ∈ st.slots := List.mem_of_find?_eq_some hfind
          rcases mem_setSlot s hs with hmem | hnew
          · exact ih s hmem
          · subst hnew
            exact slotInv_book slot (ih slot hslot) hguard.1 hguard.2

/-- Slot and state used to witness the amended invariant: capacity 2, booked once. -/
def c3wSlotCreated : MentorshipSlot :=
  { id := 1, alumniUserId := 8, slotStart := "2025-03-01T09:00",
    slotEnd := "2025-03-01T10:00", maxStudents := 2, currentBookings := 0,
    description := "", createdAt := "t0", status := .AVAILABLE }

/-- The state after creating `c3wSlotCreated` from the empty store. -/
def c3wState1 : MentorState :=
  { slots := [c3wSlotCreated], nextSlotId := 2, bookings := [], nextBookingId := 1 }

/-- The booked-once version of `c3wSlotCreated`. -/
def c3wSlotBooked : MentorshipSlot :=
  { c3wSlotCreated with currentBookings := 1 }

/-- The state after student 5 books the slot once. -/
def c3wState2 : MentorState :=
  { slots := [c3wSlotBooked], nextSlotId := 2,
    bookings := [{ id := 1, slotId := 1, studentId := 5, bookedAt := "t1",
                   status := .CONFIRMED }],
    nextBookingId := 2 }

/-- Witness for the amended C3: the reachable state `c3wState2` satisfies the
invariant at its slot. -/
theorem slot_invariant_witness : MentorReach c3wState2 ∧ SlotInv c3wSlotBooked := by
  have hreach : MentorReach c3wState2 :=
    @MentorReach.book c3wState1 c3wState2 5 1 "t1"
      { id := 1, slotId := 1, studentId := 5, bookedAt := "t1", status := .CONFIRMED }
      (@MentorReach.create { slots := [], nextSlotId := 1, bookings := [], nextBookingId := 1 }
        c3wState1 8 (some "2025-03-01T09:00") (some "2025-03-01T10:00") (some 2)
        (some "") "t0" c3wSlotCreated MentorReach.init rfl)
      rfl
  exact ⟨hreach, slot_invariant hreach c3wSlotBooked (List.mem_cons_self _ _)⟩

/-- **C4.** Booking an AVAILABLE slot with spare capacity as a student without an
existing booking on it succeeds: it creates a CONFIRMED booking, replaces the
slot by one whose `currentBookings` is exactly one higher, and the new status is
FULL iff the incremented count equals `maxStudents` (else it stays AVAILABLE) —
never before that point and never skipped. -/
theorem book_success (studentId slotId : Nat) (now : String) (st : MentorState)
    (slot : MentorshipSlot)
    (hfind : st.slots.find? (fun s => s.id == slotId) = some slot)
    (havail : slot.status = .AVAILABLE)
    (hcap : slot.currentBookings < slot.maxStudents)
    (hnb : st.bookings.find?
      (fun b => b.slotId == slotId && b.studentId == studentId) = none) :
    ∃ b slot',
      bookSlot studentId slotId now st = .ok (b,
        { st with
          slots := setSlot st.slots slotId slot'
          bookings := st.bookings ++ [b]
          nextBookingId := st.nextBookingId + 1 }) ∧
      b.status = .CONFIRMED ∧ b.slotId = slotId ∧ b.studentId = studentId ∧
      slot'.currentBookings = slot.currentBookings + 1 ∧
      (slot'.status = .FULL ↔ slot.currentBookings + 1 = slot.maxStudents) ∧
      (slot'.status = .AVAILABLE ↔ slot.currentBookings + 1 ≠ slot.maxStudents) := by
  have hguard : (slot.status != SlotStatus.AVAILABLE
      || decide (slot.currentBookings ≥ slot.maxStudents)) = false := by
    rw [havail]
    simp only [bne_self_eq_false, Bool.false_or, decide_eq_false_iff_not, not_le]
    exact hcap
  refine ⟨{ id := st.nextBookingId, slotId := slotId, studentId := studentId,
            bookedAt := now, status := .CONFIRMED },
          { slot with
            currentBookings := slot.currentBookings + 1
            status := (if slot.currentBookings + 1 ≥ slot.maxStudents then SlotStatus.FULL
                       else slot.status) },
          ?_, rfl, rfl, rfl, rfl, ?_, ?_⟩
  · unfold bookSlot
    rw [hfind]
    simp only [hguard, Bool.false_eq_true, if_false, hnb]
  · show (if slot.currentBookings + 1 ≥ slot.maxStudents then SlotStatus.FULL else slot.status)
        = SlotStatus.FULL ↔ slot.currentBookings + 1 = slot.maxStudents
    by_cases hged : slot.currentBookings + 1 ≥ slot.maxStudents
    · rw [if_pos hged]
      constructor
      · intro _; omega
      · intro _; rfl
    · rw [if_neg hged, havail]
      constructor
      · intro hf; exact absurd hf (by simp)
      · intro hc; omega
  · show (if slot.currentBookings + 1 ≥ slot.maxStudents then SlotStatus.FULL else slot.status)
        = SlotStatus.AVAILABLE ↔ slot.currentBookings + 1 ≠ slot.maxStudents
    by_cases hged : slot.currentBookings + 1 ≥ slot.maxStudents
    · rw [if_pos hged]
      constructor
      · intro hf; exact absurd hf (by simp)
      · intro hc; omega
    · rw [if_neg hged, havail]
      constructor
      · intro _; omega
      · intro _; rfl

/-- Slot and state used to witness C4: one free seat left. -/
def c4Slot : MentorshipSlot :=
  { id := 2, alumniUserId := 8, slotStart := "2025-04-01T09:00",
    slotEnd := "2025-04-01T10:00", maxStudents := 1, currentBookings := 0,
    description := "", createdAt := "t0", status := .AVAILABLE }

/-- State holding `c4Slot` and no bookings. -/
def c4State : MentorState :=
  { slots := [c4Slot], nextSlotId := 3, bookings := [], nextBookingId := 1 }

/-- Witness for C4: student 5 books `c4Slot`; the slot flips to FULL because the
incremented count reaches `maxStudents = 1`. -/
theorem book_success_witness :
    c4State.slots.find? (fun s => s.id == 2) = some c4Slot ∧
    c4Slot.status = .AVAILABLE ∧ c4Slot.currentBookings < c4Slot.maxStudents ∧
    c4State.bookings.find? (fun b => b.slotId == 2 && b.studentId == 5) = none ∧
    ∃ b slot',
      bookSlot 5 2 "t1" c4State = .ok (b,
        { c4State with
          slots := setSlot c4State.slots 2 slot'
          bookings := c4State.bookings ++ [b]
          nextBookingId := c4State.nextBookingId + 1 }) ∧
      b.status = .CONFIRMED ∧ b.slotId = 2 ∧ b.studentId = 5 ∧
      slot'.currentBookings = c4Slot.currentBookings + 1 ∧
      (slot'.status = .FULL ↔ c4Slot.currentBookings + 1 = c4Slot.maxStudents) ∧
      (slot'.status = .AVAILABLE ↔ c4Slot.currentBookings + 1 ≠ c4Slot.maxStudents) :=
  ⟨rfl, rfl, by decide, rfl,
    book_success 5 2 "t1" c4State c4Slot rfl rfl (by decide) rfl⟩

/-- The FULL slot used for the C6 counterexample. -/
def c6Slot : MentorshipSlot :=
  { id := 1, alumniUserId := 8, slotStart := "2025-05-01T09:00",
    slotEnd := "2025-05-01T10:00", maxStudents := 1, currentBookings := 1,
    description := "", createdAt := "t0", status := .FULL }

/-- State in which student 5 already holds the single booking of `c6Slot`. -/
def c6State : MentorState :=
  { slots := [c6Slot], nextSlotId := 2,
    bookings := [{ id := 1, slotId := 1, studentId := 5, bookedAt := "t1",
                   status := .CONFIRMED }],
    nextBookingId := 2 }

/-- **C6, counterexample.** Student 5 already holds a booking on slot 1, yet
re-booking the now-FULL slot fails with `validation` (400 "no longer
available"), not `conflict` (409): the availability check at index.js:698 runs
before the duplicate-booking check at index.js:703, so the Conflict answer is
not independent of capacity. -/
theorem book_duplicate_counterexample :
    (c6State.bookings.find? (fun b => b.slotId == 1 && b.studentId == 5)).isSome = true ∧
    bookSlot 5 1 "t2" c6State = .error .validation ∧
    ApiError.validation ≠ ApiError.conflict :=
  ⟨rfl, by rfl, by decide⟩

/-- **C6, amended.** When the slot exists and the student already holds a booking
on it, `bookSlot` fails with `conflict` provided the slot passes the
availability gate (status AVAILABLE and `currentBookings < maxStudents`);
whenever the slot fails that gate — in particular when it is FULL or its
`currentBookings` has reached `maxStudents` — the call fails with `validation`
instead, regardless of any existing booking. -/
theorem book_duplicate_behavior (studentId slotId : Nat) (now : String)
    (st : MentorState) (slot : MentorshipSlot)
    (hfind : st.slots.find? (fun s => s.id == slotId) = some slot) :
    (slot.status ≠ .AVAILABLE ∨ slot.maxStudents ≤ slot.currentBookings →
      bookSlot studentId slotId now st = .error .validation) ∧
    (∀ b0, st.bookings.find?
        (fun b => b.slotId == slotId && b.studentId == studentId) = some b0 →
      slot.status = .AVAILABLE → slot.currentBookings < slot.maxStudents →
      bookSlot studentId slotId now st = .error .conflict) := by
  constructor
  · intro hgate
    unfold bookSlot
    rw [hfind]
    have : (slot.status != SlotStatus.AVAILABLE
        || decide (slot.currentBookings ≥ slot.maxStudents)) = true := by
      rcases hgate with h | h
      · simp only [Bool.or_eq_true, bne_iff_ne, ne_eq]
        exact Or.inl h
      · simp only [Bool.or_eq_true, decide_eq_true_eq, ge_iff_le]
        exact Or.inr h
    simp only [this]
    rfl
  · intro b0 hb0 havail hcap
    unfold bookSlot
    rw [hfind]
    have hguard : (slot.status != SlotStatus.AVAILABLE
        || decide (slot.currentBookings ≥ slot.maxStudents)) = false := by
      rw [havail]
      simp only [bne_self_eq_false, Bool.false_or, decide_eq_false_iff_not, not_le]
      exact hcap
    simp only [hguard, Bool.false_eq_true, if_false, hb0]

/-- Slot used to witness the amended C6: spare capacity, student already booked. -/
def c6wSlot : MentorshipSlot :=
  { id := 1, alumniUserId := 8, slotStart := "2025-06-01T09:00",
    slotEnd := "2025-06-01T10:00", maxStudents := 2, currentBookings := 1,
    description := "", createdAt := "t0", status := .AVAILABLE }

/-- State in which student 5 already booked `c6wSlot`, which still has room. -/
def c6wState : MentorState :=
  { slots := [c6wSlot], nextSlotId := 2,
    bookings := [{ id := 1, slotId := 1, studentId := 5, bookedAt := "t1",
                   status := .CONFIRMED }],
    nextBookingId := 2 }

/-- Witness for the amended C6: on the still-AVAILABLE `c6wSlot`, the duplicate
booking by student 5 is answered with `conflict`, and the FULL-gate conjunct
fires with `validation` for student 6 once the gate condition is assumed. -/
theorem book_duplicate_behavior_witness :
    c6wState.slots.find? (fun s => s.id == 1) = some c6wSlot ∧
    c6wState.bookings.find? (fun b => b.slotId == 1 && b.studentId == 5) =
      some { id := 1, slotId := 1, studentId := 5, bookedAt := "t1",
             status := .CONFIRMED } ∧
    bookSlot 5 1 "t2" c6wState = .error .conflict :=
  ⟨rfl, rfl,
    (book_duplicate_behavior 5 1 "t2" c6wState c6wSlot rfl).2
      { id := 1, slotId := 1, studentId := 5, bookedAt := "t1", status := .CONFIRMED }
      rfl rfl (by decide)⟩

/-! ## Student profile endpoints -/

/-- The request body fields that `PUT /api/students/profile` destructures
(index.js:288): `branch, cgpa, currentBacklogs, skills, projects, education,
personalInfo` — note that `experience` is NOT among them. -/
structure ProfileBody where
  branch : Option String
  cgpa : Option Rat
  currentBacklogs : Option Int
  skills : Option (List String)
  projects : Option String
  education : Option (List EducationEntry)
  personalInfo : Option PersonalInfo
deriving DecidableEq, Repr

/-- `GET /api/students/profile` (index.js:262-283): a pure read — it returns the
stored profile, or a default empty structure when none exists, and never writes
to `studentProfiles` (the lazy-creation the spec describes does not happen on
reads). -/
def getStudentProfile (userId : Nat) (studentProfiles : List StudentProfile) :
    StudentProfile :=
  match studentProfiles.find? (fun p => p.userId == userId) with
  | none =>
    { userId := userId, branch := "", cgpa := 0, currentBacklogs := 0, skills := [],
      experience := "", projects := "", education := [],
      personalInfo := { address := "", linkedin := "", github := "" } }
  | some profile => profile

/-- `PUT /api/students/profile` (index.js:286-316).  The destructuring at
index.js:288 does not bind `experience`, yet the object literal at index.js:297
evaluates `experience || ''`.  Reading an undeclared identifier throws a
`ReferenceError` in JavaScript (in strict and sloppy mode alike), and it does so
while the `profile` object is still being built — before `studentProfiles` is
read or written.  The `catch` at index.js:312 converts the exception into a 500
response.  The handler therefore always fails with an internal error and leaves
the store unchanged, which this embedding renders as a constant `.internal`
error. -/
def updateStudentProfile (userId : Nat) (body : ProfileBody) (now : String)
    (studentProfiles : List StudentProfile) :
    Except ApiError (StudentProfile × List StudentProfile) :=
  .error .internal

/-- **C5.** Evaluating the profile-write handler: every call — in particular the
perfectly well-formed one below — returns the internal error instead of storing
the submitted fields, because index.js:297 reads the never-bound identifier
`experience`; and the read handler returns a default structure without creating
a profile, so no store write ever happens through these two endpoints. -/
theorem profile_write_always_internal_error :
    (∀ (userId : Nat) (body : ProfileBody) (now : String)
        (studentProfiles : List StudentProfile),
      updateStudentProfile userId body now studentProfiles = .error .internal) ∧
    updateStudentProfile 42
      { branch := some "CS", cgpa := some 8, currentBacklogs := some 0,
        skills := some ["python"], projects := some "demo", education := some [],
        personalInfo := some { address := "", linkedin := "", github := "" } }
      "t0" [] = .error .internal ∧
    getStudentProfile 42 [] =
      { userId := 42, branch := "", cgpa := 0, currentBacklogs := 0, skills := [],
        experience := "", projects := "", education := [],
        personalInfo := { address := "", linkedin := "", github := "" } } :=
  ⟨fun _ _ _ _ => rfl, rfl, rfl⟩

/-! ## 4.6 Analytics: branch statistics -/

/-- The bucket key used by the stats loop (index.js:809):
`profile.branch || 'Unknown'`. -/
def branchKey (p : StudentProfile) : String :=
  if p.branch = "" then "Unknown" else p.branch

/-- `applications.filter(a => a.studentId === profile.userId && a.status ===
'SELECTED').length > 0` (index.js:815-816). -/
def hasSelectedApp (applications : List Application) (userId : Nat) : Bool :=
  decide (0 < (applications.filter
    (fun a => a.studentId == userId && a.status == AppStatus.SELECTED)).length)

/-- One iteration of the stats loop on the `branchStats` object: bump `total`
for the profile's bucket and bump `placed` when the student has a SELECTED
application, creating the bucket on first use.  JS object keys keep insertion
order, which the association list models. -/
def bumpBranch : List (String × Nat × Nat) → String → Bool → List (String × Nat × Nat)
  | [], key, sel => [(key, 1, if sel then 1 else 0)]
  | (k, t, pl) :: rest, key, sel =>
    if k = key then (k, t + 1, if sel then pl + 1 else pl) :: rest
    else (k, t, pl) :: bumpBranch rest key sel

/-- The `branchStats` accumulation of `GET /api/analytics/stats`
(index.js:807-819). -/
def branchStats (profiles : List StudentProfile) (applications : List Application) :
    List (String × Nat × Nat) :=
  profiles.foldl
    (fun m p => bumpBranch m (branchKey p) (hasSelectedApp applications p.userId)) []

/-- First-match lookup in the bucket list, `(0, 0)` when the key is absent. -/
def lkpB : List (String × Nat × Nat) → String → Nat × Nat
  | [], _ => (0, 0)
  | (k, t, pl) :: rest, key => if k = key then (t, pl) else lkpB rest key

/-- `bumpBranch` bumps exactly the looked-up bucket. -/
theorem lkpB_bumpBranch (m : List (String × Nat × Nat)) (key : String) (sel : Bool)
    (q : String) :
    lkpB (bumpBranch m key sel) q =
      if q = key
      then ((lkpB m key).1 + 1, (lkpB m key).2 + (if sel then 1 else 0))
      else lkpB m q := by
  induction m with
  | nil =>
    by_cases hq : q = key
    · subst hq
      simp [bumpBranch, lkpB]
    · simp [bumpBranch, lkpB, hq, Ne.symm hq]
  | cons hd rest ih =>
    obtain ⟨k0, t, pl⟩ := hd
    by_cases h0 : k0 = key
    · subst h0
      by_cases hq : q = k0
      · subst hq
        cases sel <;> simp [bumpBranch, lkpB]
      · simp [bumpBranch, lkpB, hq, Ne.symm hq]
    · by_cases hq : q = k0
      · subst hq
        have hqkey : ¬ q = key := h0
        simp [bumpBranch, lkpB, h0, hqkey]
      · have hk0q : ¬ k0 = q := fun h => hq h.symm
        simp only [bumpBranch, if_neg h0, lkpB, if_neg hk0q]
        exact ih

/-- Running the stats loop over `profiles` adds, bucket by bucket, the number of
profiles in the bucket to `total` and the number of those with a SELECTED
application to `placed`. -/
theorem lkpB_foldl (applications : List Application) (b : String)
    (profiles : List StudentProfile) :
    ∀ m : List (String × Nat × Nat),
      lkpB (profiles.foldl
        (fun m p => bumpBranch m (branchKey p) (hasSelectedApp applications p.userId)) m) b =
      ((lkpB m b).1 + profiles.countP (fun p => branchKey p == b),
       (lkpB m b).2 + profiles.countP
         (fun p => branchKey p == b && hasSelectedApp applications p.userId)) := by
  induction profiles with
  | nil => intro m; simp
  | cons p ps ih =>
    intro m
    rw [List.foldl_cons, ih, lkpB_bumpBranch]
    rw [List.countP_cons, List.countP_cons]
    by_cases hb : b = branchKey p
    · rw [if_pos hb]
      subst hb
      cases hsel : hasSelectedApp applications p.userId with
      | true =>
        simp only [hsel, beq_self_eq_true, Bool.and_true, eq_self_iff_true, if_true,
          Prod.mk.injEq]
        constructor <;> omega
      | false =>
        simp only [hsel, beq_self_eq_true, Bool.and_false, eq_self_iff_true, if_true,
          Bool.false_eq_true, if_false, Prod.mk.injEq]
        constructor <;> omega
    · rw [if_neg hb]
      have h1 : (branchKey p == b) = false := by
        simp only [beq_eq_false_iff_ne, ne_eq]
        intro h
        exact hb h.symm
      simp only [h1, Bool.false_and, Bool.false_eq_true, if_false, Prod.mk.injEq]
      constructor <;> omega

/-- `bumpBranch` keeps the key list, only appending `key` when it was absent. -/
theorem keys_bumpBranch (m : List (String × Nat × Nat)) (key : String) (sel : Bool) :
    (bumpBranch m key sel).map Prod.fst =
      if key ∈ m.map Prod.fst then m.map Prod.fst else m.map Prod.fst ++ [key] := by
  induction m with
  | nil => simp [bumpBranch]
  | cons hd rest ih =>
    obtain ⟨k0, t, pl⟩ := hd
    by_cases h0 : k0 = key
    · subst h0
      simp [bumpBranch]
    · have hne : ¬ key = k0 := fun h => h0 h.symm
      simp only [bumpBranch, if_neg h0, List.map_cons, List.mem_cons, hne, false_or, ih]
      by_cases hmem : key ∈ rest.map Prod.fst
      · simp [hmem]
      · simp [hmem]

/-- The stats loop never creates a duplicate bucket key. -/
theorem nodup_keys_bumpBranch (m : List (String × Nat × Nat)) (key : String) (sel : Bool)
    (hnd : (m.map Prod.fst).Nodup) : ((bumpBranch m key sel).map Prod.fst).Nodup := by
  rw [keys_bumpBranch]
  by_cases hmem : key ∈ m.map Prod.fst
  · rwa [if_pos hmem]
  · rw [if_neg hmem]
    simp only [List.nodup_append, List.nodup_cons, List.not_mem_nil, not_false_iff,
      List.nodup_nil, and_true, true_and]
    exact ⟨hnd, by
      intro a ha
      simp only [List.mem_singleton]
      intro h
      exact hmem (h ▸ ha)⟩

/-- Bucket keys of `branchStats` are distinct. -/
theorem nodup_keys_branchStats (profiles : List StudentProfile)
    (applications : List Application) :
    ((branchStats profiles applications).map Prod.fst).Nodup := by
  unfold branchStats
  have h : ∀ (ps : List StudentProfile) (m : List (String × Nat × Nat)),
      (m.map Prod.fst).Nodup →
      ((ps.foldl (fun m p =>
        bumpBranch m (branchKey p) (hasSelectedApp applications p.userId)) m).map
          Prod.fst).Nodup := by
    intro ps
    induction ps with
    | nil => intro m hm; exact hm
    | cons p ps ih =>
      intro m hm
      rw [List.foldl_cons]
      exact ih _ (nodup_keys_bumpBranch m _ _ hm)
  exact h profiles [] (by simp)

/-- With distinct keys, membership determines the lookup result. -/
theorem lkpB_of_mem {m : List (String × Nat × Nat)} (hnd : (m.map Prod.fst).Nodup)
    {k : String} {t pl : Nat} (hmem : (k, t, pl) ∈ m) : lkpB m k = (t, pl) := by
  induction m with
  | nil => simp at hmem
  | cons hd rest ih =>
    obtain ⟨k0, t0, pl0⟩ := hd
    simp only [List.map_cons, List.nodup_cons] at hnd
    rcases List.mem_cons.mp hmem with heq | hrest
    · cases heq
      simp [lkpB]
    · by_cases hk : k0 = k
      · exfalso
        apply hnd.1
        subst hk
        exact List.mem_map_of_mem Prod.fst hrest
      · simp only [lkpB, if_neg hk]
        exact ih hnd.2 hrest

/-- Counting elements satisfying a conjunction never exceeds counting the first
conjunct alone. -/
theorem countP_and_le {α : Type} {p q : α → Bool} :
    ∀ l : List α, l.countP (fun x => p x && q x) ≤ l.countP p := by
  intro l
  induction l with
  | cons x xs ih =>
    rw [List.countP_cons, List.countP_cons]
    cases hp : p x <;> cases hq : q x <;> simp [hp, hq] <;> omega
  | nil => simp

/-- **C9.** Every bucket `(branch, total, placed)` of `branchStats` satisfies:
`total` counts the profiles of the branch, `placed` counts the profiles of the
branch whose student has at least one SELECTED application — once per student,
not once per SELECTED application — and therefore `placed <= total`. -/
theorem branch_placed_le_total (profiles : List StudentProfile)
    (applications : List Application) (b : String) (t pl : Nat)
    (hmem : (b, t, pl) ∈ branchStats profiles applications) :
    t = profiles.countP (fun p => branchKey p == b) ∧
    pl = profiles.countP
      (fun p => branchKey p == b && hasSelectedApp applications p.userId) ∧
    pl ≤ t := by
  have hnd := nodup_keys_branchStats profiles applications
  have h1 := lkpB_of_mem hnd hmem
  have h2 := lkpB_foldl applications b profiles []
  unfold branchStats at h1
  rw [h2] at h1
  simp only [lkpB, Nat.zero_add] at h1
  have ht : t = profiles.countP (fun p => branchKey p == b) :=
    (congrArg Prod.fst h1).symm
  have hpl : pl = profiles.countP
      (fun p => branchKey p == b && hasSelectedApp applications p.userId) :=
    (congrArg Prod.snd h1).symm
  refine ⟨ht, hpl, ?_⟩
  rw [ht, hpl]
  exact countP_and_le profiles

/-- Profile used to witness C9. -/
def c9Profile : StudentProfile :=
  { userId := 1, branch := "CS", cgpa := 8, currentBacklogs := 0, skills := [],
    experience := "", projects := "", education := [],
    personalInfo := { address := "", linkedin := "", github := "" } }

/-- Two SELECTED applications by the same student (userId 1). -/
def c9Apps : List Application :=
  [{ id := 1, driveId := 1, studentId := 1, status := .SELECTED,
     appliedAt := "t", updatedAt := "t" },
   { id := 2, driveId := 2, studentId := 1, status := .SELECTED,
     appliedAt := "t", updatedAt := "t" }]

/-- Witness for C9: with two SELECTED applications for one CS student, the CS
bucket is `(total, placed) = (1, 1)` — placed is not double-counted. -/
theorem branch_placed_le_total_witness :
    ("CS", 1, 1) ∈ branchStats [c9Profile] c9Apps ∧
    (1 = [c9Profile].countP (fun p => branchKey p == "CS") ∧
     1 = [c9Profile].countP
       (fun p => branchKey p == "CS" && hasSelectedApp c9Apps p.userId) ∧
     1 ≤ 1) :=
  ⟨by decide, branch_placed_le_total [c9Profile] c9Apps "CS" 1 1 (by decide)⟩

/-! ## A stable sort

`Array.prototype.sort` with a comparator is required to be stable; both ranking
sites (`sort((a, b) => b.score - a.score)` at index.js:773 and
`sort(([, a], [, b]) => b - a)` at index.js:859) sort in descending key order
keeping ties in their original order.  Insertion sort below is such a stable
sort, used as the embedding of both calls. -/

/-- Insert `x` before the first element `y` with `le x y` (stable: on ties the
inserted, originally-earlier element goes first). -/
def insertSorted {α : Type} (le : α → α → Bool) (x : α) : List α → List α
  | [] => [x]
  | y :: ys => if le x y then x :: y :: ys else y :: insertSorted le x ys

/-- Stable insertion sort with respect to the boolean relation `le`. -/
def stableSort {α : Type} (le : α → α → Bool) : List α → List α
  | [] => []
  | x :: xs => insertSorted le x (stableSort le xs)

/-- `insertSorted` produces a permutation of `x :: l`. -/
theorem insertSorted_perm {α : Type} (le : α → α → Bool) (x : α) (l : List α) :
    (insertSorted le x l).Perm (x :: l) := by
  induction l with
  | nil => simp [insertSorted]
  | cons y ys ih =>
    unfold insertSorted
    by_cases h : le x y
    · rw [if_pos h]
    · rw [if_neg h]
      exact List.Perm.trans (List.Perm.cons y ih) (List.Perm.swap x y ys)

/-- `stableSort` permutes its input. -/
theorem stableSort_perm {α : Type} (le : α → α → Bool) (l : List α) :
    (stableSort le l).Perm l := by
  induction l with
  | nil => simp [stableSort]
  | cons x xs ih =>
    exact List.Perm.trans (insertSorted_perm le x (stableSort le xs)) (List.Perm.cons x ih)

/-- Membership in a stable sort is membership in the input. -/
theorem mem_stableSort {α : Type} (le : α → α → Bool) (l : List α) (a : α) :
    a ∈ stableSort le l ↔ a ∈ l :=
  (stableSort_perm le l).mem_iff

/-- Inserting into a `Pairwise`-sorted list keeps it sorted, for a total,
transitive boolean relation. -/
theorem pairwise_insertSorted {α : Type} (le : α → α → Bool)
    (htot : ∀ a b, le a b || le b a)
    (htrans : ∀ a b c, le a b = true → le b c = true → le a c = true)
    (x : α) (l : List α) (hl : l.Pairwise (fun a b => le a b = true)) :
    (insertSorted le x l).Pairwise (fun a b => le a b = true) := by
  induction l with
  | nil => simp [insertSorted]
  | cons y ys ih =>
    rcases List.pairwise_cons.mp hl with ⟨hy, hys⟩
    unfold insertSorted
    by_cases h : le x y
    · rw [if_pos h]
      refine List.pairwise_cons.mpr ⟨?_, hl⟩
      intro b hb
      rcases List.mem_cons.mp hb with rfl | hb
      · exact h
      · exact htrans x y b h (hy b hb)
    · rw [if_neg h]
      refine List.pairwise_cons.mpr ⟨?_, ih hys⟩
      intro b hb
      rcases List.mem_cons.mp ((insertSorted_perm le x ys).mem_iff.mp hb) with hbx | hb2
      · rw [hbx]
        have habs := htot x y
        rw [Bool.or_eq_true] at habs
        rcases habs with h1 | h1
        · exact absurd h1 h
        · exact h1
      · exact hy b hb2

/-- A stable sort is `Pairwise`-sorted for a total, transitive relation. -/
theorem pairwise_stableSort {α : Type} (le : α → α → Bool)
    (htot : ∀ a b, le a b || le b a)
    (htrans : ∀ a b c, le a b = true → le b c = true → le a c = true)
    (l : List α) : (stableSort le l).Pairwise (fun a b => le a b = true) := by
  induction l with
  | nil => simp [stableSort]
  | cons x xs ih => exact pairwise_insertSorted le htot htrans x (stableSort le xs) ih

/-- Inserting increments the length by one. -/
theorem length_insertSorted {α : Type} (le : α → α → Bool) (x : α) (l : List α) :
    (insertSorted le x l).length = l.length + 1 := by
  induction l with
  | nil => simp [insertSorted]
  | cons y ys ih =>
    unfold insertSorted
    by_cases h : le x y
    · rw [if_pos h]
      simp
    · rw [if_neg h]
      simp [ih]

/-- Sorting preserves the length. -/
theorem length_stableSort {α : Type} (le : α → α → Bool) (l : List α) :
    (stableSort le l).length = l.length := by
  induction l with
  | nil => simp [stableSort]
  | cons x xs ih =>
    unfold stableSort
    rw [length_insertSorted, ih]
    rfl

/-- The maximal key of a list (0 for the empty list). -/
def maxKey {α : Type} (k : α → Nat) (l : List α) : Nat :=
  l.foldr (fun y m => max (k y) m) 0

/-- Every element's key is bounded by `maxKey`. -/
theorem key_le_maxKey {α : Type} (k : α → Nat) {l : List α} {a : α} (ha : a ∈ l) :
    k a ≤ maxKey k l := by
  induction l with
  | nil => simp at ha
  | cons y ys ih =>
    rcases List.mem_cons.mp ha with rfl | ha'
    · exact Nat.le_max_left _ _
    · exact Nat.le_trans (ih ha') (Nat.le_max_right _ _)

/-- The head of the descending stable sort is the first element of the input
attaining the maximal key: stability resolves ties in input order. -/
theorem stableSort_head_firstMax {α : Type} (k : α → Nat) (l : List α) (hne : l ≠ []) :
    (stableSort (fun a b => decide (k b ≤ k a)) l).head? =
      l.find? (fun y => k y == maxKey k l) := by
  induction l with
  | nil => exact absurd rfl hne
  | cons x xs ih =>
    have hmax : maxKey k (x :: xs) = max (k x) (maxKey k xs) := rfl
    by_cases h1 : maxKey k xs ≤ k x
    · have hm : maxKey k (x :: xs) = k x := by rw [hmax]; exact Nat.max_eq_left h1
      have hfind : (x :: xs).find? (fun y => k y == maxKey k (x :: xs)) = some x := by
        rw [List.find?_cons]
        have : (k x == maxKey k (x :: xs)) = true := by
          rw [hm]
          exact beq_self_eq_true _
        rw [this]
      rw [hfind]
      show (insertSorted (fun a b => decide (k b ≤ k a)) x (stableSort _ xs)).head? = some x
      cases hs : stableSort (fun a b => decide (k b ≤ k a)) xs with
      | nil => simp [insertSorted]
      | cons y t =>
        have hy : y ∈ xs := by
          have : y ∈ stableSort (fun a b => decide (k b ≤ k a)) xs := by
            rw [hs]; exact List.mem_cons_self _ _
          exact (mem_stableSort _ xs y).mp this
        have hle : (decide (k y ≤ k x)) = true := by
          rw [decide_eq_true_eq]
          exact Nat.le_trans (key_le_maxKey k hy) h1
        simp [insertSorted, hle]
    · push_neg at h1
      have hm : maxKey k (x :: xs) = maxKey k xs := by
        rw [hmax]
        exact Nat.max_eq_right (Nat.le_of_lt h1)
      have hxs : xs ≠ [] := by
        intro h
        rw [h] at h1
        exact absurd h1 (by simp [maxKey])
      have hfind : (x :: xs).find? (fun y => k y == maxKey k (x :: xs)) =
          xs.find? (fun y => k y == maxKey k xs) := by
        rw [List.find?_cons]
        have : (k x == maxKey k (x :: xs)) = false := by
          rw [hm, beq_eq_false_iff_ne]
          omega
        rw [this, hm]
      rw [hfind]
      show (insertSorted (fun a b => decide (k b ≤ k a)) x (stableSort _ xs)).head? = _
      cases hs : stableSort (fun a b => decide (k b ≤ k a)) xs with
      | nil =>
        exfalso
        have := length_stableSort (fun a b : α => decide (k b ≤ k a)) xs
        rw [hs] at this
        exact hxs (List.eq_nil_of_length_eq_zero this.symm)
      | cons y t =>
        have hihy : some y = xs.find? (fun y => k y == maxKey k xs) := by
          have := ih hxs
          rw [hs] at this
          exact this
        have hpy : (k y == maxKey k xs) = true := by
          have hfs := List.find?_some hihy.symm
          exact hfs
        have hky : k y = maxKey k xs := by
          rwa [beq_iff_eq] at hpy
        have hnle : (decide (k y ≤ k x)) = false := by
          rw [decide_eq_false_iff_not]
          omega
        simp only [insertSorted, hnle, Bool.false_eq_true, if_false, List.head?_cons]
        exact hihy

/-! ## 4.5 FAQ / Bot Matcher -/

/-- `String.prototype.toLowerCase`, written over the character list so that it
reduces inside the kernel (the corpus and all queries are ASCII, where
`Char.toLower` agrees with JS). -/
def jsToLower (s : String) : String :=
  ⟨s.data.map Char.toLower⟩

/-- `t` is a prefix of `s` (on character lists). -/
def charsHasPre : List Char → List Char → Bool
  | [], _ => true
  | _ :: _, [] => false
  | a :: t, b :: s => a == b && charsHasPre t s

/-- `t` occurs contiguously somewhere in `s` (on character lists). -/
def charsHasSub (t : List Char) : List Char → Bool
  | [] => t.isEmpty
  | c :: s' => charsHasPre t (c :: s') || charsHasSub t s'

/-- JS `s.includes(t)`: substring containment (every string includes `""`). -/
def strIncludes (s t : String) : Bool :=
  charsHasSub t.data s.data

/-- Worker for `query.split(/\s+/)`: `skipping` records whether we are inside a
whitespace run that already emitted its token boundary.  Splitting "` a  b `"
style strings produces leading/trailing empty tokens exactly as in JS. -/
def splitWsAux : List Char → List Char → Bool → List (List Char)
  | [], cur, skipping => if skipping then [[]] else [cur.reverse]
  | c :: cs, cur, skipping =>
    if skipping then
      if c.isWhitespace then splitWsAux cs cur true
      else splitWsAux cs [c] false
    else
      if c.isWhitespace then cur.reverse :: splitWsAux cs [] true
      else splitWsAux cs (c :: cur) false

/-- JS `query.split(/\s+/)`: split on runs of whitespace. -/
def splitWs (s : String) : List String :=
  (splitWsAux s.data [] false).map (fun cs => ⟨cs⟩)

/-- An FAQ record of the static corpus (index.js:76-82). -/
structure FAQ where
  id : Nat
  question : String
  answer : String
  tags : List String
  category : String
deriving DecidableEq, Repr

/-- The scoring loop of `POST /api/bot/ask` (index.js:752-770): +2 per tag whose
lower-cased text occurs in the lower-cased question, then +1 per
whitespace-delimited token of the query occurring in the lower-cased FAQ
question text. -/
def computeScore (query : String) (faq : FAQ) : Nat :=
  let tagScore := faq.tags.foldl
    (fun sc tag => if strIncludes query (jsToLower tag) then sc + 2 else sc) 0
  (splitWs query).foldl
    (fun sc w => if strIncludes (jsToLower faq.question) w then sc + 1 else sc) tagScore

/-- `matchedFAQs` (index.js:751-773): score, keep the strictly positive ones, and
stable-sort by descending score. -/
def rankedFAQs (query : String) (faqs : List FAQ) : List (FAQ × Nat) :=
  stableSort (fun a b => decide (b.2 ≤ a.2))
    ((faqs.map (fun f => (f, computeScore query f))).filter (fun p => decide (0 < p.2)))

/-- The two response shapes of the bot: the fallback carries three full FAQ
records, a match carries the best answer plus `{question, answer}` pairs. -/
inductive BotReply where
  | fallback (answer : String) (related : List FAQ)
  | matched (answer : String) (related : List (String × String))
deriving DecidableEq, Repr

/-- The fixed fallback answer (index.js:777). -/
def fallbackAnswer : String :=
  "I couldn\x27t find a specific answer to your question. Please contact the Placement Office for assistance."

/-- `POST /api/bot/ask` (index.js:740-794): 400 on a falsy question; fallback
answer plus the first three FAQs when nothing scores above 0; otherwise the
top-ranked FAQ's answer plus the next three ranked FAQs. -/
def askBot (question : String) (faqs : List FAQ) : Except ApiError BotReply :=
  if question = "" then .error .validation
  else
    match rankedFAQs (jsToLower question) faqs with
    | [] => .ok (.fallback fallbackAnswer (faqs.take 3))
    | best :: rest =>
      .ok (.matched best.1.answer ((rest.take 3).map (fun p => (p.1.question, p.1.answer))))

/-- Filtering out zero keys does not change the maximal key. -/
theorem maxKey_filter_pos {α : Type} (k : α → Nat) (l : List α) :
    maxKey k (l.filter (fun x => decide (0 < k x))) = maxKey k l := by
  induction l with
  | nil => rfl
  | cons x xs ih =>
    by_cases hx : 0 < k x
    · rw [List.filter_cons_of_pos (by simpa using hx)]
      show max (k x) (maxKey k (xs.filter (fun x => decide (0 < k x)))) = max (k x) (maxKey k xs)
      rw [ih]
    · rw [List.filter_cons_of_neg (by simpa using hx)]
      show maxKey k (xs.filter (fun x => decide (0 < k x))) = max (k x) (maxKey k xs)
      rw [ih]
      omega
/-- `find?` commutes with a filter whose predicate is implied by the search
predicate. -/
theorem find?_filter_of_imp {α : Type} (p q : α → Bool) (l : List α)
    (himp : ∀ x, p x = true → q x = true) :
    (l.filter q).find? p = l.find? p := by
  induction l with
  | nil => rfl
  | cons x xs ih =>
    by_cases hq : q x = true
    · rw [List.filter_cons_of_pos hq, List.find?_cons, List.find?_cons]
      cases hp : p x
      · exact ih
      · rfl
    · rw [List.filter_cons_of_neg (by simpa using hq), List.find?_cons]
      cases hp : p x
      · exact ih
      · exact absurd (himp x hp) hq

/-- `maxKey` of the `(element, key)` pairing is `maxKey` of the keys. -/
theorem maxKey_map_pair {α : Type} (k : α → Nat) (l : List α) :
    maxKey (fun p : α × Nat => p.2) (l.map (fun x => (x, k x))) = maxKey k l := by
  induction l with
  | nil => rfl
  | cons x xs ih =>
    show max (k x) (maxKey _ (xs.map (fun x => (x, k x)))) = max (k x) (maxKey k xs)
    rw [ih]

/-- The static FAQ corpus seeded at index.js:76-82 (answers abbreviated in the
spec; kept verbatim here except for plain-text punctuation). -/
def seedFAQs : List FAQ :=
  [{ id := 1, question := "What is the minimum CGPA requirement?",
     answer := "The minimum CGPA requirement varies by company. Most companies require a minimum of 7.0 CGPA, but some may accept lower. Check individual drive details for specific requirements.",
     tags := ["cgpa", "requirement", "eligibility"], category := "eligibility" },
   { id := 2, question := "Can I apply with backlogs?",
     answer := "Some companies allow applications with backlogs, typically up to 2-3 active backlogs. Check the drive details for the maximum allowed backlogs.",
     tags := ["backlogs", "eligibility"], category := "eligibility" },
   { id := 3, question := "When is the interview scheduled?",
     answer := "Interview dates are typically communicated via email/SMS after you apply. Check your Application Tracker for the latest status and interview schedule.",
     tags := ["interview", "schedule", "date"], category := "application" },
   { id := 4, question := "Where will the interview be conducted?",
     answer := "Interview venues are usually communicated along with the interview schedule. Most interviews are conducted on campus, but some companies may conduct online interviews. Check your application details for venue information.",
     tags := ["venue", "location", "interview"], category := "application" },
   { id := 5, question := "How do I check my application status?",
     answer := "You can check your application status in the Application Tracker section of your dashboard. It will show whether your application is Applied, Interview Scheduled, Selected, or Rejected.",
     tags := ["status", "application", "tracker"], category := "application" }]

/-- **C8.** For every non-empty question: when no FAQ scores above 0 under the
tag/token scoring rule, the bot answers with the fixed fallback text plus the
first three FAQs of the corpus; otherwise it answers with the answer of the
first corpus FAQ attaining the maximal score (stability of the sort resolves
ties in corpus order) and relates the next three ranked FAQs. -/
theorem bot_ranking (question : String) (faqs : List FAQ) (hq : ¬ question = "") :
    ((∀ f ∈ faqs, computeScore (jsToLower question) f = 0) →
      askBot question faqs = .ok (.fallback fallbackAnswer (faqs.take 3))) ∧
    (∀ f0, f0 ∈ faqs → 0 < computeScore (jsToLower question) f0 →
      ∃ best rest,
        faqs.find? (fun f => computeScore (jsToLower question) f ==
          maxKey (computeScore (jsToLower question)) faqs) = some best ∧
        rankedFAQs (jsToLower question) faqs =
          (best, computeScore (jsToLower question) best) :: rest ∧
        askBot question faqs = .ok (.matched best.answer
          ((rest.take 3).map (fun p => (p.1.question, p.1.answer))))) := by
  constructor
  · intro hall
    unfold askBot
    rw [if_neg hq]
    have hfilter : (faqs.map (fun f => (f, computeScore (jsToLower question) f))).filter
        (fun p => decide (0 < p.2)) = [] := by
      rw [List.filter_eq_nil_iff]
      intro p hp
      rcases List.mem_map.mp hp with ⟨f, hf, rfl⟩
      simp [hall f hf]
    have hrk : rankedFAQs (jsToLower question) faqs = [] := by
      unfold rankedFAQs
      rw [hfilter]
      rfl
    rw [hrk]
  · intro f0 hf0 hpos
    set q := jsToLower question with hqdef
    set M := maxKey (computeScore q) faqs with hMdef
    set scored := faqs.map (fun f => (f, computeScore q f)) with hscored
    set filtered := scored.filter (fun p => decide (0 < p.2)) with hfiltered
    have hMpos : 0 < M := by
      rw [hMdef]
      exact lt_of_lt_of_le hpos (key_le_maxKey (computeScore q) hf0)
    have hmemf : (f0, computeScore q f0) ∈ filtered := by
      rw [hfiltered]
      exact List.mem_filter.mpr
        ⟨by rw [hscored]; exact List.mem_map_of_mem _ hf0, by simpa using hpos⟩
    have hfne : filtered ≠ [] := List.ne_nil_of_mem hmemf
    have hrank : rankedFAQs q faqs = stableSort (fun a b => decide (b.2 ≤ a.2)) filtered := by
      unfold rankedFAQs
      rw [← hscored, ← hfiltered]
    have hlen := length_stableSort (fun a b : FAQ × Nat => decide (b.2 ≤ a.2)) filtered
    obtain ⟨hd, rest, hcons⟩ :
        ∃ hd rest, stableSort (fun a b : FAQ × Nat => decide (b.2 ≤ a.2)) filtered
            = hd :: rest := by
      cases hs : stableSort (fun a b : FAQ × Nat => decide (b.2 ≤ a.2)) filtered with
      | nil =>
        exfalso
        rw [hs] at hlen
        exact hfne (List.eq_nil_of_length_eq_zero hlen.symm)
      | cons a b => exact ⟨a, b, rfl⟩
    have hhead := stableSort_head_firstMax (fun p : FAQ × Nat => p.2) filtered hfne
    rw [hcons] at hhead
    have hMeq : maxKey (fun p : FAQ × Nat => p.2) filtered = M := by
      rw [hfiltered, maxKey_filter_pos (fun p : FAQ × Nat => p.2) scored, hscored,
        maxKey_map_pair, hMdef]
    rw [hMeq] at hhead
    have himp : ∀ x : FAQ × Nat, (x.2 == M) = true → (decide (0 < x.2)) = true := by
      intro x hx
      rw [beq_iff_eq] at hx
      rw [decide_eq_true_eq, hx]
      exact hMpos
    have hfindchain : filtered.find? (fun y => y.2 == M) =
        (faqs.find? (fun f => computeScore q f == M)).map
          (fun f => (f, computeScore q f)) := by
      rw [hfiltered, find?_filter_of_imp _ _ _ himp, hscored, List.find?_map]
      rfl
    rw [hfindchain] at hhead
    cases hfind : faqs.find? (fun f => computeScore q f == M) with
    | none =>
      rw [hfind] at hhead
      simp at hhead
    | some best =>
      rw [hfind] at hhead
      rw [show (some best).map (fun f => (f, computeScore q f)) =
        some (best, computeScore q best) from rfl] at hhead
      have hhd : hd = (best, computeScore q best) := Option.some.inj hhead
      refine ⟨best, rest, rfl, ?_, ?_⟩
      · rw [hrank, hcons, hhd]
      · unfold askBot
        rw [if_neg hq]
        rw [show jsToLower question = q from hqdef.symm, hrank, hcons, hhd]

/-- A two-entry corpus used to witness the ranking behaviour. -/
def c8faqA : FAQ :=
  { id := 1, question := "cgpa rule", answer := "a1", tags := ["cgpa"], category := "c" }

/-- Second corpus entry, unrelated to the query. -/
def c8faqB : FAQ :=
  { id := 2, question := "venue", answer := "a2", tags := ["venue"], category := "c" }

/-- Witness for C8: on the corpus `[c8faqA, c8faqB]`, the question "cgpa" gives
`c8faqA` a positive score, so the bot answers with the first maximal-score FAQ. -/
theorem bot_ranking_witness :
    ¬ ("cgpa" : String) = "" ∧ c8faqA ∈ [c8faqA, c8faqB] ∧
    0 < computeScore (jsToLower "cgpa") c8faqA ∧
    (∃ best rest,
      [c8faqA, c8faqB].find? (fun f => computeScore (jsToLower "cgpa") f ==
        maxKey (computeScore (jsToLower "cgpa")) [c8faqA, c8faqB]) = some best ∧
      rankedFAQs (jsToLower "cgpa") [c8faqA, c8faqB] =
        (best, computeScore (jsToLower "cgpa") best) :: rest ∧
      askBot "cgpa" [c8faqA, c8faqB] = .ok (.matched best.answer
        ((rest.take 3).map (fun p => (p.1.question, p.1.answer))))) :=
  ⟨by decide, by decide, by decide,
    (bot_ranking "cgpa" [c8faqA, c8faqB] (by decide)).2 c8faqA (by decide) (by decide)⟩

/-! ## 4.6 Analytics: skill gap -/

/-- `placedStudents` (index.js:844-847): for every SELECTED application, fetch
the applicant's profile; `.map(find).filter(p => p)` is `filterMap`.  A student
with several SELECTED applications therefore appears once per such application. -/
def placedStudents (profiles : List StudentProfile)
    (applications : List Application) : List StudentProfile :=
  (applications.filter (fun a => a.status == AppStatus.SELECTED)).filterMap
    (fun a => profiles.find? (fun p => p.userId == a.studentId))

/-- One `skillFrequency[skill] = (skillFrequency[skill] || 0) + 1` step
(index.js:852), on the insertion-ordered association list. -/
def bumpSkill : List (String × Nat) → String → List (String × Nat)
  | [], s => [(s, 1)]
  | (k, v) :: rest, s => if k = s then (k, v + 1) :: rest else (k, v) :: bumpSkill rest s

/-- The `skillFrequency` accumulation over all placed students (index.js:849-854). -/
def skillFrequency (placed : List StudentProfile) : List (String × Nat) :=
  placed.foldl (fun m p => p.skills.foldl (fun m sk => bumpSkill m (jsToLower sk)) m) []

/-- Total number of occurrences of the lower-cased skill `s` across the placed
list — once per list entry, i.e. once per SELECTED application. -/
def totalSkillCount (s : String) (placed : List StudentProfile) : Nat :=
  (placed.map (fun p => (p.skills.map (fun sk => jsToLower sk)).count s)).sum

/-- One entry of the `recommendations` response (index.js:861-866). -/
structure Recommendation where
  skill : String
  frequency : Nat
  percentage : Rat
  recommendation : String
deriving DecidableEq, Repr

/-- JS `x.toFixed(0)` for the non-negative percentages that occur here:
round-half-up to an integer. -/
def jsToFixed0 (x : Rat) : Int :=
  (x + 1/2).floor

/-- `GET /api/analytics/skill-gap` (index.js:836-873): empty list when the
requester has no profile; otherwise frequency-count the placed students' skills,
drop the requester's own (lower-cased) skills, stable-sort by descending count,
keep the top 5 and render each with its exact percentage
`count / placedStudents.length * 100` (the response formats it with
`toFixed(1)`; the rational value is kept here). -/
def skillGap (userId : Nat) (profiles : List StudentProfile)
    (applications : List Application) : List Recommendation :=
  match profiles.find? (fun p => p.userId == userId) with
  | none => []
  | some profile =>
    let placed := placedStudents profiles applications
    let freq := skillFrequency placed
    let studentSkills := profile.skills.map (fun s => jsToLower s)
    (((stableSort (fun a b => decide (b.2 ≤ a.2))
        (freq.filter (fun kv => !(studentSkills.contains kv.1)))).take 5).map
      (fun kv =>
        { skill := kv.1
          frequency := kv.2
          percentage := (kv.2 : Rat) / ((placed.length : Nat) : Rat) * 100
          recommendation := toString (jsToFixed0 ((kv.2 : Rat) / ((placed.length : Nat) : Rat) * 100)) ++
            "% of placed students have " ++ kv.1 ++ ". Consider learning this skill." }))

/-- The frequency notion the claim asserts: the number of distinct placed
students (profiles with at least one SELECTED application) listing the skill,
counted once per student regardless of how many SELECTED applications they
hold.  This follows the claim's words and is compared against the source's
per-application counting. -/
def specSkillFrequency (s : String) (profiles : List StudentProfile)
    (applications : List Application) : Nat :=
  (profiles.filter (fun p => hasSelectedApp applications p.userId &&
    (p.skills.map (fun sk => jsToLower sk)).contains s)).length

/-- First-match lookup with default 0. -/
def lkpS : List (String × Nat) → String → Nat
  | [], _ => 0
  | (k, v) :: rest, q => if k = q then v else lkpS rest q

/-- `bumpSkill` increments exactly the looked-up entry. -/
theorem lkpS_bumpSkill (m : List (String × Nat)) (s q : String) :
    lkpS (bumpSkill m s) q = (if q = s then 1 else 0) + lkpS m q := by
  induction m with
  | nil =>
    by_cases hq : q = s
    · subst hq
      simp [bumpSkill, lkpS]
    · simp [bumpSkill, lkpS, hq, Ne.symm hq]
  | cons hd rest ih =>
    obtain ⟨k0, v⟩ := hd
    by_cases h0 : k0 = s
    · subst h0
      by_cases hq : q = k0
      · subst hq
        simp [bumpSkill, lkpS]
        omega
      · simp [bumpSkill, lkpS, hq, Ne.symm hq]
    · by_cases hq : q = k0
      · subst hq
        have hqs : ¬ q = s := h0
        simp [bumpSkill, lkpS, h0, hqs]
      · have hk0q : ¬ k0 = q := fun h => hq h.symm
        simp only [bumpSkill, if_neg h0, lkpS, if_neg hk0q]
        exact ih

/-- Folding one profile's skills into the map adds that profile's occurrence
count of each lower-cased skill. -/
theorem lkpS_skills_foldl (skills : List String) (q : String) :
    ∀ m : List (String × Nat),
      lkpS (skills.foldl (fun m sk => bumpSkill m (jsToLower sk)) m) q =
        lkpS m q + (skills.map (fun sk => jsToLower sk)).count q := by
  induction skills with
  | nil => intro m; simp
  | cons sk sks ih =>
    intro m
    rw [List.foldl_cons, ih, lkpS_bumpSkill, List.map_cons, List.count_cons]
    by_cases hq : q = jsToLower sk
    · have : (jsToLower sk == q) = true := by
        rw [beq_iff_eq]
        exact hq.symm
      rw [if_pos hq, this]
      simp only [eq_self_iff_true, if_true]
      omega
    · have : (jsToLower sk == q) = false := by
        rw [beq_eq_false_iff_ne]
        exact fun h => hq h.symm
      rw [if_neg hq, this]
      simp only [Bool.false_eq_true, if_false]
      omega

/-- The frequency map realises `totalSkillCount`. -/
theorem lkpS_skillFrequency (placed : List StudentProfile) (q : String) :
    lkpS (skillFrequency placed) q = totalSkillCount q placed := by
  unfold skillFrequency totalSkillCount
  have h : ∀ (ps : List StudentProfile) (m : List (String × Nat)),
      lkpS (ps.foldl (fun m p => p.skills.foldl (fun m sk => bumpSkill m (jsToLower sk)) m) m) q =
        lkpS m q + (ps.map (fun p => (p.skills.map (fun sk => jsToLower sk)).count q)).sum := by
    intro ps
    induction ps with
    | nil => intro m; simp
    | cons p ps ih =>
      intro m
      rw [List.foldl_cons, ih, lkpS_skills_foldl]
      rw [List.map_cons, List.sum_cons]
      omega
  have := h placed []
  rw [this]
  simp [lkpS]

/-- `bumpSkill` keeps the key list, only appending `s` when it was absent. -/
theorem keys_bumpSkill (m : List (String × Nat)) (s : String) :
    (bumpSkill m s).map Prod.fst =
      if s ∈ m.map Prod.fst then m.map Prod.fst else m.map Prod.fst ++ [s] := by
  induction m with
  | nil => simp [bumpSkill]
  | cons hd rest ih =>
    obtain ⟨k0, v⟩ := hd
    by_cases h0 : k0 = s
    · subst h0
      simp [bumpSkill]
    · have hne : ¬ s = k0 := fun h => h0 h.symm
      simp only [bumpSkill, if_neg h0, List.map_cons, List.mem_cons, hne, false_or, ih]
      by_cases hmem : s ∈ rest.map Prod.fst
      · simp [hmem]
      · simp [hmem]

/-- `bumpSkill` preserves distinctness of the keys. -/
theorem nodup_keys_bumpSkill (m : List (String × Nat)) (s : String)
    (hnd : (m.map Prod.fst).Nodup) : ((bumpSkill m s).map Prod.fst).Nodup := by
  rw [keys_bumpSkill]
  by_cases hmem : s ∈ m.map Prod.fst
  · rwa [if_pos hmem]
  · rw [if_neg hmem]
    simp only [List.nodup_append, List.nodup_cons, List.not_mem_nil, not_false_iff,
      List.nodup_nil, and_true, true_and]
    exact ⟨hnd, by
      intro a ha
      simp only [List.mem_singleton]
      intro h
      exact hmem (h ▸ ha)⟩

/-- The keys of `skillFrequency` are distinct. -/
theorem nodup_keys_skillFrequency (placed : List StudentProfile) :
    ((skillFrequency placed).map Prod.fst).Nodup := by
  unfold skillFrequency
  have h : ∀ (ps : List StudentProfile) (m : List (String × Nat)),
      (m.map Prod.fst).Nodup →
      ((ps.foldl (fun m p => p.skills.foldl (fun m sk => bumpSkill m (jsToLower sk)) m) m).map
        Prod.fst).Nodup := by
    intro ps
    induction ps with
    | nil => intro m hm; exact hm
    | cons p ps ih =>
      intro m hm
      rw [List.foldl_cons]
      refine ih _ ?_
      have hsk : ∀ (sks : List String) (m : List (String × Nat)),
          (m.map Prod.fst).Nodup →
          ((sks.foldl (fun m sk => bumpSkill m (jsToLower sk)) m).map Prod.fst).Nodup := by
        intro sks
        induction sks with
        | nil => intro m hm; exact hm
        | cons sk sks ih2 =>
          intro m hm
          rw [List.foldl_cons]
          exact ih2 _ (nodup_keys_bumpSkill m _ hm)
      exact hsk p.skills m hm
  exact h placed [] (by simp)

/-- With distinct keys, membership determines the lookup result. -/
theorem lkpS_of_mem {m : List (String × Nat)} (hnd : (m.map Prod.fst).Nodup)
    {k : String} {v : Nat} (hmem : (k, v) ∈ m) : lkpS m k = v := by
  induction m with
  | nil => simp at hmem
  | cons hd rest ih =>
    obtain ⟨k0, v0⟩ := hd
    simp only [List.map_cons, List.nodup_cons] at hnd
    rcases List.mem_cons.mp hmem with heq | hrest
    · cases heq
      simp [lkpS]
    · by_cases hk : k0 = k
      · exfalso
        apply hnd.1
        subst hk
        exact List.mem_map_of_mem Prod.fst hrest
      · simp only [lkpS, if_neg hk]
        exact ih hnd.2 hrest

/-- When every placed profile lists each lower-cased skill at most once, the
total occurrence count of a skill is bounded by the number of placed entries. -/
theorem totalSkillCount_le_length (q : String) (placed : List StudentProfile)
    (hnd : ∀ p ∈ placed, ((p.skills.map (fun sk => jsToLower sk)).Nodup)) :
    totalSkillCount q placed ≤ placed.length := by
  unfold totalSkillCount
  induction placed with
  | nil => simp
  | cons p ps ih =>
    rw [List.map_cons, List.sum_cons, List.length_cons]
    have h1 : (p.skills.map (fun sk => jsToLower sk)).count q ≤ 1 :=
      List.nodup_iff_count_le_one.mp (hnd p (List.mem_cons_self _ _)) q
    have h2 := ih (fun p hp => hnd p (List.mem_cons_of_mem _ hp))
    omega

/-- The exact percentage is non-negative. -/
theorem pct_nonneg (v len : Nat) : 0 ≤ (v : Rat) / ((len : Nat) : Rat) * 100 := by
  positivity

/-- The exact percentage is at most 100 when the count is bounded by the number
of entries (also when both are 0, where the quotient is 0). -/
theorem pct_le_100 (v len : Nat) (h : v ≤ len) :
    (v : Rat) / ((len : Nat) : Rat) * 100 ≤ 100 := by
  rcases Nat.eq_zero_or_pos len with h0 | hpos
  · subst h0
    have hv : v = 0 := Nat.le_zero.mp h
    subst hv
    norm_num
  · have hlen : (0 : Rat) < (len : Rat) := by exact_mod_cast hpos
    have hvle : (v : Rat) ≤ (len : Rat) := by exact_mod_cast h
    rw [div_mul_eq_mul_div, div_le_iff₀ hlen]
    nlinarith

/-- **C7, amended.** For a requester with a profile, provided each placed profile
lists each lower-cased skill at most once: the recommendations are at most 5,
sorted by non-increasing frequency, never contain a skill the requester already
has (case-insensitively), and each entry's frequency is the total occurrence
count of the skill across the profiles fetched once per SELECTED application —
a student with several SELECTED applications is counted once per application —
with `percentage = frequency / placedEntries * 100`, which then lies in
`[0, 100]`. -/
theorem skillGap_spec (userId : Nat) (profiles : List StudentProfile)
    (applications : List Application) (profile : StudentProfile)
    (hp : profiles.find? (fun p => p.userId == userId) = some profile)
    (hnd : ∀ p ∈ placedStudents profiles applications,
      (p.skills.map (fun sk => jsToLower sk)).Nodup) :
    (skillGap userId profiles applications).length ≤ 5 ∧
    (skillGap userId profiles applications).Pairwise
      (fun r1 r2 => r2.frequency ≤ r1.frequency) ∧
    ∀ r ∈ skillGap userId profiles applications,
      ((profile.skills.map (fun s => jsToLower s)).contains r.skill) = false ∧
      r.frequency = totalSkillCount r.skill (placedStudents profiles applications) ∧
      r.percentage = (r.frequency : Rat) /
        (((placedStudents profiles applications).length : Nat) : Rat) * 100 ∧
      0 ≤ r.percentage ∧ r.percentage ≤ 100 := by
  have hskill : skillGap userId profiles applications =
      (((stableSort (fun a b => decide (b.2 ≤ a.2))
        ((skillFrequency (placedStudents profiles applications)).filter
          (fun kv => !((profile.skills.map (fun s => jsToLower s)).contains kv.1)))).take 5).map
      (fun kv =>
        { skill := kv.1
          frequency := kv.2
          percentage := (kv.2 : Rat) /
            (((placedStudents profiles applications).length : Nat) : Rat) * 100
          recommendation := toString (jsToFixed0 ((kv.2 : Rat) /
              (((placedStudents profiles applications).length : Nat) : Rat) * 100)) ++
            "% of placed students have " ++ kv.1 ++
            ". Consider learning this skill." })) := by
    unfold skillGap
    rw [hp]
  have htot : ∀ a b : String × Nat,
      (decide (b.2 ≤ a.2) || decide (a.2 ≤ b.2)) = true := by
    intro a b
    rw [Bool.or_eq_true, decide_eq_true_eq, decide_eq_true_eq]
    omega
  have htrans : ∀ a b c : String × Nat, decide (b.2 ≤ a.2) = true →
      decide (c.2 ≤ b.2) = true → decide (c.2 ≤ a.2) = true := by
    intro a b c h1 h2
    rw [decide_eq_true_eq] at h1 h2 ⊢
    omega
  refine ⟨?_, ?_, ?_⟩
  · rw [hskill, List.length_map]
    exact List.length_take_le _ _
  · rw [hskill]
    rw [List.pairwise_map]
    have hsorted := pairwise_stableSort (fun a b : String × Nat => decide (b.2 ≤ a.2))
      htot htrans
      ((skillFrequency (placedStudents profiles applications)).filter
        (fun kv => !((profile.skills.map (fun s => jsToLower s)).contains kv.1)))
    have htake := List.Pairwise.sublist (List.take_sublist 5 _) hsorted
    exact htake.imp (fun h => by
      rw [decide_eq_true_eq] at h
      exact h)
  · intro r hr
    rw [hskill] at hr
    rcases List.mem_map.mp hr with ⟨kv, hkv, rfl⟩
    have hkv2 : kv ∈ stableSort (fun a b : String × Nat => decide (b.2 ≤ a.2))
        ((skillFrequency (placedStudents profiles applications)).filter
          (fun kv => !((profile.skills.map (fun s => jsToLower s)).contains kv.1))) :=
      List.mem_of_mem_take hkv
    have hkv3 := (mem_stableSort _ _ kv).mp hkv2
    rcases List.mem_filter.mp hkv3 with ⟨hkvfreq, hkvpass⟩
    obtain ⟨k, v⟩ := kv
    have hfreq : v = totalSkillCount k (placedStudents profiles applications) := by
      have h1 := lkpS_of_mem (nodup_keys_skillFrequency
        (placedStudents profiles applications)) hkvfreq
      rw [← h1, lkpS_skillFrequency]
    refine ⟨?_, hfreq, rfl, pct_nonneg _ _, ?_⟩
    · rw [Bool.not_eq_true'] at hkvpass
      exact hkvpass
    · show (v : Rat) / (((placedStudents profiles applications).length : Nat) : Rat) * 100 ≤ 100
      rw [hfreq]
      exact pct_le_100 _ _ (totalSkillCount_le_length _ _ hnd)

/-- Profile of the doubly-placed student for the C7 counterexample. -/
def c7pA : StudentProfile :=
  { userId := 1, branch := "CS", cgpa := 8, currentBacklogs := 0,
    skills := ["python"], experience := "", projects := "", education := [],
    personalInfo := { address := "", linkedin := "", github := "" } }

/-- Profile of the requesting student (no skills). -/
def c7pB : StudentProfile :=
  { userId := 2, branch := "CS", cgpa := 7, currentBacklogs := 0,
    skills := [], experience := "", projects := "", education := [],
    personalInfo := { address := "", linkedin := "", github := "" } }

/-- Profiles for the double-counting counterexample. -/
def c7profilesA : List StudentProfile := [c7pA, c7pB]

/-- Student 1 has TWO SELECTED applications (drives 1 and 2). -/
def c7appsA : List Application :=
  [{ id := 1, driveId := 1, studentId := 1, status := .SELECTED,
     appliedAt := "t", updatedAt := "t" },
   { id := 2, driveId := 2, studentId := 1, status := .SELECTED,
     appliedAt := "t", updatedAt := "t" }]

/-- Profile listing the same skill twice with different case. -/
def c7pC : StudentProfile :=
  { userId := 3, branch := "CS", cgpa := 8, currentBacklogs := 0,
    skills := ["Python", "python"], experience := "", projects := "", education := [],
    personalInfo := { address := "", linkedin := "", github := "" } }

/-- Requester for the above-100-percent counterexample. -/
def c7pD : StudentProfile :=
  { userId := 4, branch := "CS", cgpa := 7, currentBacklogs := 0,
    skills := [], experience := "", projects := "", education := [],
    personalInfo := { address := "", linkedin := "", github := "" } }

/-- Profiles for the above-100-percent counterexample. -/
def c7profilesB : List StudentProfile := [c7pC, c7pD]

/-- A single SELECTED application by student 3. -/
def c7appsB : List Application :=
  [{ id := 1, driveId := 1, studentId := 3, status := .SELECTED,
     appliedAt := "t", updatedAt := "t" }]

/-- **C7, counterexample.** With student 1 placed twice, the code reports
frequency 2 for "python" although only one distinct placed student has it —
the claim's once-per-student count is 1; and with a profile listing
"Python"/"python" twice, the reported percentage is 2/1*100 = 200, outside
`[0,100]`. -/
theorem skillGap_counterexample :
    (skillGap 2 c7profilesA c7appsA).map (fun r => (r.skill, r.frequency)) =
      [("python", 2)] ∧
    specSkillFrequency "python" c7profilesA c7appsA = 1 ∧
    (skillGap 4 c7profilesB c7appsB).map (fun r => r.percentage) =
      [((2 : Nat) : Rat) / ((1 : Nat) : Rat) * 100] ∧
    ¬ (((2 : Nat) : Rat) / ((1 : Nat) : Rat) * 100 ≤ 100) :=
  ⟨by decide, by decide, by rfl, by norm_num⟩

/-- Witness for the amended C7 at the concrete double-placement state. -/
theorem skillGap_spec_witness :
    c7profilesA.find? (fun p => p.userId == 2) = some c7pB ∧
    ((skillGap 2 c7profilesA c7appsA).length ≤ 5 ∧
     (skillGap 2 c7profilesA c7appsA).Pairwise
       (fun r1 r2 => r2.frequency ≤ r1.frequency) ∧
     ∀ r ∈ skillGap 2 c7profilesA c7appsA,
       ((c7pB.skills.map (fun s => jsToLower s)).contains r.skill) = false ∧
       r.frequency = totalSkillCount r.skill (placedStudents c7profilesA c7appsA) ∧
       r.percentage = (r.frequency : Rat) /
         (((placedStudents c7profilesA c7appsA).length : Nat) : Rat) * 100 ∧
       0 ≤ r.percentage ∧ r.percentage ≤ 100) :=
  ⟨rfl, skillGap_spec 2 c7profilesA c7appsA c7pB rfl (by decide)⟩
